import Mathlib

/-!
Shallow embedding of the ShupraProtects phishing-analysis pipeline
(`src/extension/background.js` and the popup's storage-cleanup routine).

JavaScript strings are modelled as Lean `String`; `String.prototype.includes`
is modelled by a structural substring search (`jsIncludes`), and
`toLowerCase()` by char-wise lowering (`lowerStr`).  The platform URL parser
(`new URL(link)` / `.hostname`) is external to the repository, so the scanner
is parametric in a `parseHost : String → Option String` function, where
`none` models a constructor throw and `some h` models a parse whose
`hostname` is `h`.  A JavaScript field access that throws a `TypeError`
(reading `.toLowerCase` of `undefined`) is modelled by an `Option`-valued
function returning `none`.
-/

namespace ShupraProtects

/-- Does the character list `hay` start with `needle`? -/
def startsWithChars : List Char → List Char → Bool
  | _, [] => true
  | [], _ :: _ => false
  | c :: cs, d :: ds => c == d && startsWithChars cs ds

/-- Does `needle` occur contiguously inside `hay`? -/
def hasSubstrChars : List Char → List Char → Bool
  | [], needle => needle.isEmpty
  | c :: cs, needle => startsWithChars (c :: cs) needle || hasSubstrChars cs needle

/-- Model of JavaScript `s.includes(sub)`. -/
def jsIncludes (s sub : String) : Bool :=
  hasSubstrChars s.data sub.data

/-- Model of JavaScript `s.startsWith(pre)`. -/
def jsStartsWith (s pre : String) : Bool :=
  startsWithChars s.data pre.data

/-- Model of JavaScript `s.toLowerCase()` (ASCII-faithful). -/
def lowerStr (s : String) : String :=
  ⟨s.data.map Char.toLower⟩

/-- Model of a JavaScript falsy test on an optional string (`!x`):
true when the value is absent or the empty string. -/
def strFalsy : Option String → Bool
  | none => true
  | some s => s.isEmpty

/-- Model of JavaScript `x || d` for an optional string. -/
def jsOrStr (x : Option String) (d : String) : String :=
  match x with
  | none => d
  | some s => if s.isEmpty then d else s

/-- Model of JavaScript `x || d` for an optional number (0 is falsy). -/
def jsOrInt (x : Option Int) (d : Int) : Int :=
  match x with
  | none => d
  | some n => if n = 0 then d else n

/-- The `EmailData` input object scraped from the page.  Fields that the
code reads with a method call are `Option`s: `none` models the field being
`undefined` in the object. -/
structure EmailData where
  fromAddr : String
  subject : Option String
  body : Option String
  links : Option (List String)
  emailId : Option String

/-- The `AnalysisResult` value object: verdict, confidence, indicator list
and recommendation string. -/
structure AnalysisResult where
  isPhishing : Bool
  confidence : Int
  indicators : List String
  recommendation : String
deriving DecidableEq

/-- The fixed keyword list of `runLocalBasicScan`. -/
def keywords : List String :=
  ["urgent", "account suspended", "verify account", "click here to update",
   "password expired", "payment failed", "unauthorized access", "invoice attached"]

/-- Indicator text pushed for a matched keyword. -/
def keywordMsg (kw : String) : String :=
  "Keyword detected: \"" ++ kw ++ "\""

/-- Indicator text pushed when links are present below the local threshold. -/
def linksFoundMsg : String :=
  "Links found (Requires manual verification)"

/-- Indicator text pushed when a link's host mismatches the email context. -/
def mismatchMsg : String :=
  "Link domain does not match email context (high risk)"

/-- Recommendation for the phishing band. -/
def phishMsg : String :=
  "Potential Phishing Detected via Local Scan. Use extreme caution and manually verify the sender and links."

/-- Recommendation for the cautiously-safe band (confidence 1..44). -/
def cautionMsg : String :=
  "Email appears safe based on basic local checks, but minor indicators were found. Use caution for complex or novel threats."

/-- Recommendation for the plain safe band (confidence 0). -/
def safeMsg : String :=
  "Email appears safe based on basic local checks."

/-- Text prepended to the recommendation in fallback mode. -/
def fallbackNotice : String :=
  "API Scan failed due to error/limit. "

/-- The keywords hit by the (already lowercased) body or subject, in list
order — the keywords the `forEach` loop fires on. -/
def kwHits (body subject : String) : List String :=
  keywords.filter fun kw => jsIncludes body kw || jsIncludes subject kw

/-- Confidence accumulated by the keyword loop: 15 per hit. -/
def kwConf (body subject : String) : Nat :=
  15 * (kwHits body subject).length

/-- The `links.some(...)` mismatch check: a link counts as mismatched when
it fails to parse, or when its lowercased hostname occurs in neither the
lowercased body nor the lowercased subject. -/
def linkMismatch (parseHost : String → Option String) (body subject : String)
    (links : List String) : Bool :=
  links.any fun link =>
    match parseHost link with
    | some host => !(jsIncludes body (lowerStr host)) && !(jsIncludes subject (lowerStr host))
    | none => true

/-- Accumulator value after the keyword loop and both link checks
(before the 90 cap), over lowercased body/subject. -/
def scanConf (parseHost : String → Option String) (body subject : String)
    (links : List String) : Nat :=
  kwConf body subject
  + (if 0 < links.length ∧ kwConf body subject < 45 then 10 else 0)
  + (if 0 < links.length ∧ linkMismatch parseHost body subject links = true then 30 else 0)

/-- Indicator list after the keyword loop and both link checks, over
lowercased body/subject; pushes happen in source order. -/
def scanInd (parseHost : String → Option String) (body subject : String)
    (links : List String) : List String :=
  (kwHits body subject).map keywordMsg
  ++ (if 0 < links.length ∧ kwConf body subject < 45 then [linksFoundMsg] else [])
  ++ (if 0 < links.length ∧ linkMismatch parseHost body subject links = true then [mismatchMsg] else [])

/-- Body of `runLocalBasicScan` once `body` and `subject` are known to be
present (so the two `toLowerCase()` calls succeed). -/
def scanCore (parseHost : String → Option String) (rawBody rawSubject : String)
    (links : List String) (isFallback : Bool) : AnalysisResult :=
  let body := lowerStr rawBody
  let subject := lowerStr rawSubject
  let confidence := min (scanConf parseHost body subject links) 90
  { isPhishing := decide (45 ≤ confidence)
    confidence := (confidence : Int)
    indicators := scanInd parseHost body subject links
    recommendation :=
      let chosen :=
        if 45 ≤ confidence then phishMsg
        else if 0 < confidence then cautionMsg
        else safeMsg
      if isFallback then fallbackNotice ++ chosen else chosen }

/-- Model of `runLocalBasicScan(emailData, isFallback)`.  Returns `none`
when the JavaScript function throws: it reads `emailData.body.toLowerCase()`
and `emailData.subject.toLowerCase()` unconditionally, so an absent body or
subject is a `TypeError`.  An absent `links` field is tolerated (the link
block is guarded by `emailData.links && ...`), which behaves like an empty
list. -/
def runLocalBasicScan (parseHost : String → Option String) (emailData : EmailData)
    (isFallback : Bool) : Option AnalysisResult :=
  match emailData.body, emailData.subject with
  | some b, some s => some (scanCore parseHost b s (emailData.links.getD []) isFallback)
  | _, _ => none

/-- Clause prepended to the recommendation when the user-threshold rule of
the reconciliation step flips the verdict. -/
def flagClause (confidence threshold : Int) : String :=
  "Flagged due to high confidence (" ++ toString confidence
  ++ "%) exceeding threshold (" ++ toString threshold ++ "%). "

/-- Rule 1 of the reconciliation step: when indicators are present, force
the verdict to phishing and floor the confidence at 50
(`Math.max(result.confidence, 50)`). -/
def reconcileRule1 (r : AnalysisResult) : AnalysisResult :=
  if r.indicators.length > 0 then
    { r with isPhishing := true, confidence := max r.confidence 50 }
  else r

/-- The reconciliation step applied to a validated remote result
(`background.js` lines 235-249): rule 1, then — when the (possibly raised)
confidence reaches the user threshold while the verdict is still negative —
force the verdict and prepend `flagClause` to the recommendation. -/
def reconcile (r : AnalysisResult) (threshold : Int) : AnalysisResult :=
  let r1 := reconcileRule1 r
  if r1.confidence ≥ threshold ∧ r1.isPhishing = false then
    { r1 with isPhishing := true,
              recommendation := flagClause r1.confidence threshold ++ r1.recommendation }
  else r1

/-- The settings object read from `chrome.storage.local`; each field is
absent (`none`) when never saved. -/
structure RemoteSettings where
  or_api_key : Option String
  or_endpoint : Option String
  or_model : Option String
  user_threshold : Option Int

/-- The failure modes of the remote path: the defensive missing-key throw,
a TypeError thrown while building the prompt from an ill-formed email
object, and the fetch/parse/validate failures. -/
inductive RemoteError where
  | noApiKey
  | promptBuildError
  | transport (msg : String)
  | emptyResponse
  | malformedResponse
  | invalidSchema
deriving DecidableEq

/-- The record persisted under an `analysis_` key: the (reconciled) result
spread together with a timestamp, an email summary and a settings
snapshot. -/
structure StoredAnalysis where
  result : AnalysisResult
  timestamp : Nat
  emailFrom : String
  emailSubject : Option String
  model : String
  threshold : Int
deriving DecidableEq

/-- The storage key `analysis_${emailData.emailId || Date.now()}`;
`now` models `Date.now()`. -/
def analysisKey (emailId : Option String) (now : Nat) : String :=
  "analysis_" ++ jsOrStr emailId (toString now)

/-- Model of `analyzeEmailWithOpenRouter(emailData, settings)`.  The
network call plus response extraction/parsing/validation is external I/O,
so its outcome is a parameter `fetchOutcome`: `.ok raw` is a response that
passed the shape validation, `.error e` any of the failures on the way.
The function models, in source order: the defensive API-key check, the
prompt construction (which throws a TypeError when `body` or `links` is
absent), the fetch/parse outcome, the two reconciliation rules, and the
storage write.  It returns the result together with the key/record pair
written to storage. -/
def analyzeEmailWithOpenRouter (emailData : EmailData) (settings : RemoteSettings)
    (fetchOutcome : Except RemoteError AnalysisResult) (now : Nat) :
    Except RemoteError (AnalysisResult × String × StoredAnalysis) :=
  let model := jsOrStr settings.or_model "meta-llama/llama-3.2-3b-instruct:free"
  let threshold := jsOrInt settings.user_threshold 70
  if strFalsy settings.or_api_key then .error .noApiKey
  else if emailData.body = none ∨ emailData.links = none then .error .promptBuildError
  else
    match fetchOutcome with
    | .error e => .error e
    | .ok raw =>
        let result := reconcile raw threshold
        .ok (result, analysisKey emailData.emailId now,
             { result := result
               timestamp := now
               emailFrom := emailData.fromAddr
               emailSubject := emailData.subject
               model := model
               threshold := threshold })

/-- Model of the router `analyzeEmail(emailData)`.  Returns `none` when the
JavaScript run ends in an uncaught exception (propagated to the caller as
`{success:false}`), and otherwise `some (result, write)` where `write` is
the storage write performed (`none` when nothing is persisted).  With a
falsy key it runs the plain local scan; otherwise it attempts the remote
path and, on any error from it, falls back to the local scan in fallback
mode — the catch block's local scan is outside the `try`, so a TypeError
thrown there still propagates. -/
def analyzeEmail (parseHost : String → Option String) (emailData : EmailData)
    (settings : RemoteSettings) (fetchOutcome : Except RemoteError AnalysisResult)
    (now : Nat) : Option (AnalysisResult × Option (String × StoredAnalysis)) :=
  if strFalsy settings.or_api_key then
    (runLocalBasicScan parseHost emailData false).map (fun r => (r, none))
  else
    match analyzeEmailWithOpenRouter emailData settings fetchOutcome now with
    | .ok (r, w) => some (r, some w)
    | .error _ => (runLocalBasicScan parseHost emailData true).map (fun r => (r, none))

/-- Predicate for keys in the analysis namespace of the store. -/
def isAnalysisKey (k : String) : Bool :=
  jsStartsWith k "analysis_"

/-- Model of `cleanupOldResults()` from the popup: enumerate the store,
keep the `analysis_`-prefixed keys, sort them, reverse (so descending),
and remove every record beyond the tenth.  The source guards the removal
with `length > 10`; removing `drop 10` (empty in that case) is the same
store.  The store is a key-value map, modelled as an association list. -/
def cleanupOldResults {α : Type} (store : List (String × α)) : List (String × α) :=
  let analysisKeys := (store.map Prod.fst).filter isAnalysisKey
  let keysToRemove := ((List.insertionSort (· ≤ ·) analysisKeys).reverse).drop 10
  store.filter fun p => decide (p.1 ∉ keysToRemove)

/-! ### Lemmas about the reconciliation step -/

theorem reconcileRule1_indicators (r : AnalysisResult) :
    (reconcileRule1 r).indicators = r.indicators := by
  unfold reconcileRule1
  split <;> rfl

theorem reconcile_indicators (r : AnalysisResult) (t : Int) :
    (reconcile r t).indicators = r.indicators := by
  simp only [reconcile]
  split <;> simp [reconcileRule1_indicators]

theorem reconcileRule1_of_ne_nil (r : AnalysisResult) (h : r.indicators ≠ []) :
    reconcileRule1 r = { r with isPhishing := true, confidence := max r.confidence 50 } := by
  unfold reconcileRule1
  rw [if_pos (List.length_pos.mpr h)]

theorem reconcileRule1_of_nil (r : AnalysisResult) (h : r.indicators = []) :
    reconcileRule1 r = r := by
  unfold reconcileRule1
  simp [h]

theorem reconcileRule1_idem (r : AnalysisResult) :
    reconcileRule1 (reconcileRule1 r) = reconcileRule1 r := by
  by_cases h : r.indicators = []
  · rw [reconcileRule1_of_nil r h, reconcileRule1_of_nil r h]
  · rw [reconcileRule1_of_ne_nil r h,
      reconcileRule1_of_ne_nil { r with isPhishing := true, confidence := max r.confidence 50 } h]
    simp [max_assoc]

theorem reconcile_of_ne_nil (r : AnalysisResult) (t : Int) (h : r.indicators ≠ []) :
    (reconcile r t).isPhishing = true ∧ 50 ≤ (reconcile r t).confidence := by
  simp only [reconcile, reconcileRule1_of_ne_nil r h]
  rw [if_neg (by simp)]
  exact ⟨rfl, le_max_right _ _⟩

/-- C3: reapplying the reconciliation step with the same threshold is the
identity on an already-reconciled result. -/
theorem reconcile_idempotent (r : AnalysisResult) (t : Int) :
    reconcile (reconcile r t) t = reconcile r t := by
  by_cases h2 : (reconcileRule1 r).confidence ≥ t ∧ (reconcileRule1 r).isPhishing = false
  · have hnil : r.indicators = [] := by
      by_contra hne
      rw [reconcileRule1_of_ne_nil r hne] at h2
      simp at h2
    have hr : reconcileRule1 r = r := reconcileRule1_of_nil r hnil
    rw [hr] at h2
    simp only [reconcile, hr]
    rw [if_pos h2]
    rw [reconcileRule1_of_nil
      { r with isPhishing := true,
               recommendation := flagClause r.confidence t ++ r.recommendation } hnil]
    rw [if_neg (by simp)]
  · simp only [reconcile]
    rw [if_neg h2, reconcileRule1_idem, if_neg h2]

/-- C4: whenever the original confidence reaches the threshold the
reconciled verdict is phishing, and when this is what flips the verdict
(no indicators, verdict previously negative) the recommendation gains the
explanatory clause naming the confidence and threshold. -/
theorem reconcile_threshold_forces_phishing (r : AnalysisResult) (t : Int)
    (h : t ≤ r.confidence) :
    (reconcile r t).isPhishing = true ∧
      (r.indicators = [] → r.isPhishing = false →
        (reconcile r t).recommendation = flagClause r.confidence t ++ r.recommendation) := by
  by_cases hnil : r.indicators = []
  · have hr : reconcileRule1 r = r := reconcileRule1_of_nil r hnil
    simp only [reconcile, hr]
    by_cases hp : r.isPhishing = false
    · rw [if_pos ⟨h, hp⟩]
      exact ⟨rfl, fun _ _ => rfl⟩
    · rw [if_neg (by simp [hp])]
      refine ⟨?_, fun _ hp' => absurd hp' hp⟩
      cases hb : r.isPhishing
      · exact absurd hb hp
      · rfl
  · refine ⟨(reconcile_of_ne_nil r t hnil).1, fun h' _ => absurd h' hnil⟩

/-- C4 witness: a concrete result at confidence 80 against threshold 70 is
flagged and its recommendation gains the explanatory clause. -/
theorem reconcile_threshold_forces_phishing_witness :
    (70 : Int) ≤ 80 ∧
      (reconcile ⟨false, 80, [], "r"⟩ 70).isPhishing = true ∧
      (reconcile ⟨false, 80, [], "r"⟩ 70).recommendation = flagClause 80 70 ++ "r" :=
  ⟨by decide,
    (reconcile_threshold_forces_phishing ⟨false, 80, [], "r"⟩ 70 (by decide)).1,
    (reconcile_threshold_forces_phishing ⟨false, 80, [], "r"⟩ 70 (by decide)).2 rfl rfl⟩

/-- C1 counterexample: with no API key configured the router hands back the
local scan of a one-keyword email unchanged, and that result has a
non-empty indicator list with a negative verdict and confidence 15 — so
the indicator invariant does not hold for every result leaving
`analyzeEmail`. -/
theorem localResult_breaks_indicator_invariant :
    (analyzeEmail (fun _ => none) ⟨"", some "urgent", some "", some [], none⟩
        ⟨none, none, none, none⟩ (.error .noApiKey) 0).map
      (fun p => (p.1.indicators.isEmpty, p.1.isPhishing, p.1.confidence))
      = some (false, false, 15) := by
  decide

/-- C1 (amended): for every result produced by the remote path
(`analyzeEmailWithOpenRouter`, which reconciles before returning), a
non-empty indicator list forces a phishing verdict with confidence at
least 50.  The original claim over every `analyzeEmail` result fails on
the local path. -/
theorem remote_result_indicator_invariant {emailData : EmailData}
    {settings : RemoteSettings} {fetchOutcome : Except RemoteError AnalysisResult}
    {now : Nat} {res : AnalysisResult} {w : String × StoredAnalysis}
    (h : analyzeEmailWithOpenRouter emailData settings fetchOutcome now = .ok (res, w))
    (hind : res.indicators ≠ []) :
    res.isPhishing = true ∧ 50 ≤ res.confidence := by
  simp only [analyzeEmailWithOpenRouter] at h
  split at h
  · simp at h
  · split at h
    · simp at h
    · split at h
      · simp at h
      · rename_i raw
        rw [Except.ok.injEq, Prod.mk.injEq] at h
        obtain ⟨hres, -⟩ := h
        subst hres
        rw [reconcile_indicators] at hind
        exact reconcile_of_ne_nil raw _ hind

/-- C1 witness for the amended theorem: a concrete inconsistent remote
answer (safe verdict, confidence 60, one indicator) leaves the remote path
flagged with confidence at least 50. -/
theorem remote_result_indicator_invariant_witness :
    (reconcile ⟨false, 60, ["x"], "r"⟩ 70).isPhishing = true ∧
      50 ≤ (reconcile ⟨false, 60, ["x"], "r"⟩ 70).confidence :=
  @remote_result_indicator_invariant ⟨"", some "", some "", some [], none⟩
    ⟨some "sk-or-x", none, none, none⟩ (.ok ⟨false, 60, ["x"], "r"⟩) 0
    (reconcile ⟨false, 60, ["x"], "r"⟩ 70)
    ("analysis_0", ⟨reconcile ⟨false, 60, ["x"], "r"⟩ 70, 0, "", some "",
      "meta-llama/llama-3.2-3b-instruct:free", 70⟩)
    rfl (by decide)

/-- C2 counterexample: the local scan reads `emailData.body.toLowerCase()`
unconditionally, so an email object without a `body` field makes it throw
(modelled as `none`) instead of treating the field as empty. -/
theorem localScan_throws_on_missing_body :
    runLocalBasicScan (fun _ => none) ⟨"", some "", none, some [], none⟩ false = none := rfl

/-- C2 (amended): the local scan never raises when `body` and `subject`
are present, and an absent `links` field behaves exactly like an empty
list — but an absent `body` or `subject` raises an error. -/
theorem localScan_total_on_present_fields (parseHost : String → Option String) :
    (∀ f s b links eid fb,
        (runLocalBasicScan parseHost ⟨f, some s, some b, links, eid⟩ fb).isSome = true)
    ∧ (∀ f s b eid fb,
        runLocalBasicScan parseHost ⟨f, s, b, none, eid⟩ fb
          = runLocalBasicScan parseHost ⟨f, s, b, some [], eid⟩ fb)
    ∧ (∀ f s links eid fb, runLocalBasicScan parseHost ⟨f, s, none, links, eid⟩ fb = none)
    ∧ (∀ f b links eid fb, runLocalBasicScan parseHost ⟨f, none, some b, links, eid⟩ fb = none) := by
  refine ⟨fun f s b links eid fb => rfl,
          fun f s b eid fb => by cases s <;> cases b <;> rfl,
          fun f s links eid fb => by cases s <;> rfl,
          fun f b links eid fb => rfl⟩

/-- C6: with no (or an empty) API credential, the router returns exactly
the plain local scan result — no fallback notice, no reconciliation — and
performs no store write. -/
theorem no_api_key_local_result_no_write (parseHost : String → Option String)
    (emailData : EmailData) (settings : RemoteSettings)
    (fetchOutcome : Except RemoteError AnalysisResult) (now : Nat)
    (h : strFalsy settings.or_api_key = true) :
    analyzeEmail parseHost emailData settings fetchOutcome now
      = (runLocalBasicScan parseHost emailData false).map (fun r => (r, none)) := by
  simp [analyzeEmail, h]

/-- C6 witness: concrete no-credential run. -/
theorem no_api_key_local_result_no_write_witness :
    strFalsy (⟨none, none, none, none⟩ : RemoteSettings).or_api_key = true ∧
      analyzeEmail (fun _ => none) ⟨"", some "", some "", some [], none⟩
          ⟨none, none, none, none⟩ (.error .noApiKey) 0
        = (runLocalBasicScan (fun _ => none) ⟨"", some "", some "", some [], none⟩ false).map
            (fun r => (r, none)) :=
  ⟨rfl, no_api_key_local_result_no_write _ _ _ _ _ rfl⟩

/-- C5: when a credential is configured and the remote scan fails with any
error, the router silently returns the fallback-mode local scan: no error
reaches the caller, nothing is persisted, and the recommendation carries
the remote-failure notice as a prefix. -/
theorem remote_failure_silent_fallback (parseHost : String → Option String)
    (emailData : EmailData) (settings : RemoteSettings) (now : Nat)
    (err : RemoteError) (b s : String) (ls : List String)
    (hb : emailData.body = some b) (hs : emailData.subject = some s)
    (hl : emailData.links = some ls)
    (hkey : strFalsy settings.or_api_key = false) :
    analyzeEmail parseHost emailData settings (.error err) now
      = some (scanCore parseHost b s ls true, none)
    ∧ ∃ rest, (scanCore parseHost b s ls true).recommendation = fallbackNotice ++ rest := by
  constructor
  · simp [analyzeEmail, analyzeEmailWithOpenRouter, hkey, hb, hs, hl, runLocalBasicScan]
  · exact ⟨_, rfl⟩

/-- C5 witness: a concrete transport failure falls back to the local scan
with the notice prefix. -/
theorem remote_failure_silent_fallback_witness :
    ((⟨"", some "s", some "b", some [], none⟩ : EmailData).body = some "b"
      ∧ strFalsy (⟨some "sk-or-x", none, none, none⟩ : RemoteSettings).or_api_key = false)
    ∧ analyzeEmail (fun _ => none) ⟨"", some "s", some "b", some [], none⟩
          ⟨some "sk-or-x", none, none, none⟩ (.error (.transport "Rate limit")) 0
        = some (scanCore (fun _ => none) "b" "s" [] true, none)
    ∧ ∃ rest, (scanCore (fun _ => none) "b" "s" [] true).recommendation
        = fallbackNotice ++ rest :=
  ⟨⟨rfl, rfl⟩,
    (remote_failure_silent_fallback (fun _ => none) ⟨"", some "s", some "b", some [], none⟩
      ⟨some "sk-or-x", none, none, none⟩ 0 (.transport "Rate limit") "b" "s" [] rfl rfl rfl rfl).1,
    (remote_failure_silent_fallback (fun _ => none) ⟨"", some "s", some "b", some [], none⟩
      ⟨some "sk-or-x", none, none, none⟩ 0 (.transport "Rate limit") "b" "s" [] rfl rfl rfl rfl).2⟩

/-- C8: every result the local scanner returns has its confidence in the
integer range zero to ninety, so it never reaches one hundred. -/
theorem local_confidence_bounds (parseHost : String → Option String)
    (emailData : EmailData) (fb : Bool) (r : AnalysisResult)
    (h : runLocalBasicScan parseHost emailData fb = some r) :
    0 ≤ r.confidence ∧ r.confidence ≤ 90 := by
  unfold runLocalBasicScan at h
  split at h
  · rw [Option.some.injEq] at h
    subst h
    simp only [scanCore]
    refine ⟨Int.natCast_nonneg _, ?_⟩
    exact_mod_cast Nat.min_le_right _ 90
  · simp at h

/-- C8 witness: bounds at a concrete input. -/
theorem local_confidence_bounds_witness :
    0 ≤ (scanCore (fun _ => none) "" "" [] false).confidence ∧
      (scanCore (fun _ => none) "" "" [] false).confidence ≤ 90 :=
  local_confidence_bounds (fun _ => none) ⟨"", some "", some "", none, none⟩ false _ rfl

/-! ### Lemmas about the local scanner's accumulator and indicator list -/

theorem scanConf_eq_zero_iff (parseHost : String → Option String)
    (body subject : String) (links : List String) :
    scanConf parseHost body subject links = 0
      ↔ scanInd parseHost body subject links = [] := by
  unfold scanConf scanInd
  by_cases h1 : 0 < links.length ∧ kwConf body subject < 45 <;>
    by_cases h2 : 0 < links.length ∧ linkMismatch parseHost body subject links = true <;>
      simp [h1, h2, kwConf, and_assoc]

theorem keywordMsg_ne_linksFound : ∀ kw ∈ keywords, keywordMsg kw ≠ linksFoundMsg := by
  decide

theorem linksFound_mem_scanInd_iff (parseHost : String → Option String)
    (body subject : String) (links : List String) :
    linksFoundMsg ∈ scanInd parseHost body subject links
      ↔ (0 < links.length ∧ kwConf body subject < 45) := by
  unfold scanInd
  constructor
  · intro hm
    rcases List.mem_append.mp hm with hm | hm
    · rcases List.mem_append.mp hm with hm | hm
      · exfalso
        rcases List.mem_map.mp hm with ⟨kw, hkw, heq⟩
        exact keywordMsg_ne_linksFound kw (List.mem_filter.mp hkw).1 heq
      · split at hm
        · next hc => exact hc
        · simp at hm
    · split at hm
      · simp at hm
        exact absurd hm.symm (by decide)
      · simp at hm
  · intro hc
    exact List.mem_append.mpr (Or.inl (List.mem_append.mpr (Or.inr (by rw [if_pos hc]; simp))))

theorem scanCore_zero_iff (parseHost : String → Option String)
    (rawB rawS : String) (links : List String) (fb : Bool) :
    ((scanCore parseHost rawB rawS links fb).confidence = 0
      ↔ (scanCore parseHost rawB rawS links fb).indicators = [])
    ∧ ((scanCore parseHost rawB rawS links false).recommendation = safeMsg
      ↔ (scanCore parseHost rawB rawS links false).indicators = []) := by
  have hiff := scanConf_eq_zero_iff parseHost (lowerStr rawB) (lowerStr rawS) links
  constructor
  · show ((min (scanConf parseHost (lowerStr rawB) (lowerStr rawS) links) 90 : Nat) : Int) = 0
      ↔ scanInd parseHost (lowerStr rawB) (lowerStr rawS) links = []
    rw [Int.natCast_eq_zero, Nat.min_eq_zero_iff, ← hiff]
    simp
  · show (if 45 ≤ min (scanConf parseHost (lowerStr rawB) (lowerStr rawS) links) 90 then phishMsg
        else if 0 < min (scanConf parseHost (lowerStr rawB) (lowerStr rawS) links) 90
          then cautionMsg else safeMsg) = safeMsg
      ↔ scanInd parseHost (lowerStr rawB) (lowerStr rawS) links = []
    rw [← hiff]
    by_cases hC : scanConf parseHost (lowerStr rawB) (lowerStr rawS) links = 0
    · rw [hC]
      norm_num
    · have hpos : 0 < min (scanConf parseHost (lowerStr rawB) (lowerStr rawS) links) 90 :=
        lt_min (Nat.pos_of_ne_zero hC) (by norm_num)
      refine iff_of_false ?_ hC
      by_cases h45 : 45 ≤ min (scanConf parseHost (lowerStr rawB) (lowerStr rawS) links) 90
      · rw [if_pos h45]
        decide
      · rw [if_neg h45, if_pos hpos]
        decide

/-- C10: the local scanner reports confidence zero exactly when its
indicator list is empty, and — outside fallback mode — hands back the
plain appears-safe recommendation exactly in that case. -/
theorem local_safe_iff_no_indicators (parseHost : String → Option String)
    (emailData : EmailData) (fb : Bool) (r : AnalysisResult)
    (h : runLocalBasicScan parseHost emailData fb = some r) :
    (r.confidence = 0 ↔ r.indicators = [])
      ∧ (fb = false → (r.recommendation = safeMsg ↔ r.indicators = [])) := by
  unfold runLocalBasicScan at h
  split at h
  · rw [Option.some.injEq] at h
    subst h
    refine ⟨(scanCore_zero_iff parseHost _ _ _ fb).1, fun hfb => ?_⟩
    subst hfb
    exact (scanCore_zero_iff parseHost _ _ _ false).2
  · simp at h

/-- C10 witness: the empty email yields confidence zero, no indicators and
the plain safe recommendation. -/
theorem local_safe_iff_no_indicators_witness :
    ((scanCore (fun _ => none) "" "" [] false).confidence = 0
        ↔ (scanCore (fun _ => none) "" "" [] false).indicators = [])
      ∧ (false = false →
        ((scanCore (fun _ => none) "" "" [] false).recommendation = safeMsg
          ↔ (scanCore (fun _ => none) "" "" [] false).indicators = [])) :=
  local_safe_iff_no_indicators (fun _ => none) ⟨"", some "", some "", none, none⟩ false _ rfl

/-- C7: an email hitting exactly three keywords, with a single link whose
parsed host appears nowhere in the lowercased body or subject, scores
exactly 15·3 + 30 = 75 (no links-found bonus, since the accumulator is
already at the local threshold 45) and is flagged as phishing; and in
general the links-found indicator appears exactly when links are present
and the keyword accumulator is still below 45. -/
theorem three_keywords_one_mismatched_link (parseHost : String → Option String) :
    (∀ f b s l eid fb host,
        (kwHits (lowerStr b) (lowerStr s)).length = 3 →
        parseHost l = some host →
        jsIncludes (lowerStr b) (lowerStr host) = false →
        jsIncludes (lowerStr s) (lowerStr host) = false →
        runLocalBasicScan parseHost ⟨f, some s, some b, some [l], eid⟩ fb
            = some (scanCore parseHost b s [l] fb)
          ∧ (scanCore parseHost b s [l] fb).isPhishing = true
          ∧ 75 ≤ (scanCore parseHost b s [l] fb).confidence)
    ∧ (∀ f b s links eid fb r,
        runLocalBasicScan parseHost ⟨f, some s, some b, some links, eid⟩ fb = some r →
        (linksFoundMsg ∈ r.indicators
          ↔ (links ≠ [] ∧ kwConf (lowerStr b) (lowerStr s) < 45))) := by
  constructor
  · intro f b s l eid fb host h3 hp hib his
    have hkw : kwConf (lowerStr b) (lowerStr s) = 45 := by
      unfold kwConf
      rw [h3]
    have hmm : linkMismatch parseHost (lowerStr b) (lowerStr s) [l] = true := by
      unfold linkMismatch
      simp [hp, hib, his]
    have hsc : scanConf parseHost (lowerStr b) (lowerStr s) [l] = 75 := by
      unfold scanConf
      rw [hkw, hmm]
      norm_num
    refine ⟨rfl, ?_, ?_⟩
    · simp only [scanCore]
      rw [hsc]
      decide
    · simp only [scanCore]
      rw [hsc]
      norm_num
  · intro f b s links eid fb r h
    rw [show runLocalBasicScan parseHost ⟨f, some s, some b, some links, eid⟩ fb
          = some (scanCore parseHost b s links fb) from rfl,
        Option.some.injEq] at h
    subst h
    simp only [scanCore]
    rw [linksFound_mem_scanInd_iff, List.length_pos]

/-- C7 witness: a concrete email hitting the keywords urgent,
account suspended and verify account, with one link to a host named
nowhere in the text. -/
theorem three_keywords_one_mismatched_link_witness :
    (kwHits (lowerStr "Urgent: account suspended - verify account") (lowerStr "")).length = 3
      ∧ runLocalBasicScan
          (fun l => if l = "http://evil.example/a" then some "evil.example" else none)
          ⟨"", some "", some "Urgent: account suspended - verify account",
            some ["http://evil.example/a"], none⟩ false
          = some (scanCore
              (fun l => if l = "http://evil.example/a" then some "evil.example" else none)
              "Urgent: account suspended - verify account" "" ["http://evil.example/a"] false)
      ∧ (scanCore
            (fun l => if l = "http://evil.example/a" then some "evil.example" else none)
            "Urgent: account suspended - verify account" "" ["http://evil.example/a"]
            false).isPhishing = true
      ∧ 75 ≤ (scanCore
            (fun l => if l = "http://evil.example/a" then some "evil.example" else none)
            "Urgent: account suspended - verify account" "" ["http://evil.example/a"]
            false).confidence :=
  ⟨by decide,
    (three_keywords_one_mismatched_link
        (fun l => if l = "http://evil.example/a" then some "evil.example" else none)).1
      "" "Urgent: account suspended - verify account" "" "http://evil.example/a" none false
      "evil.example" (by decide) (by decide) (by decide) (by decide)⟩

/-- C9: starting from a store with pairwise-distinct keys holding exactly
fifteen analysis records, the cleanup routine leaves exactly ten analysis
records, keeps every record outside the analysis namespace, and every
record it removed has a key lexically smaller than every analysis key it
kept — so the ten survivors are the ten lexically greatest. -/
theorem cleanup_keeps_ten_greatest {α : Type} (store : List (String × α))
    (hnd : (store.map Prod.fst).Nodup)
    (h15 : ((store.map Prod.fst).filter isAnalysisKey).length = 15) :
    (((cleanupOldResults store).map Prod.fst).filter isAnalysisKey).length = 10
    ∧ (∀ p ∈ store, isAnalysisKey p.1 = false → p ∈ cleanupOldResults store)
    ∧ (∀ p ∈ store, p ∉ cleanupOldResults store →
        ∀ q ∈ cleanupOldResults store, isAnalysisKey q.1 = true → p.1 < q.1) := by
  have hclean : cleanupOldResults store
      = store.filter (fun p => decide (p.1 ∉
          ((List.insertionSort (· ≤ ·) ((store.map Prod.fst).filter isAnalysisKey)).reverse).drop
            10)) := rfl
  set S := List.insertionSort (· ≤ ·) ((store.map Prod.fst).filter isAnalysisKey) with hSdef
  have hperm : S.Perm ((store.map Prod.fst).filter isAnalysisKey) :=
    List.perm_insertionSort _ _
  have hpw : List.Pairwise (· ≤ ·) S := List.sorted_insertionSort _ _
  have hSnd : S.Nodup := hperm.nodup_iff.mpr (hnd.filter _)
  have hSlen : S.length = 15 := hperm.length_eq.trans h15
  have hsplit : S.take 5 ++ S.drop 5 = S := List.take_append_drop 5 S
  have hRtake : S.reverse.drop 10 = (S.take 5).reverse := by
    rw [List.drop_reverse, hSlen]
  have hmemR : ∀ x : String, x ∈ S.reverse.drop 10 ↔ x ∈ S.take 5 := by
    intro x
    rw [hRtake, List.mem_reverse]
  have hcross : ∀ x ∈ S.take 5, ∀ y ∈ S.drop 5, x ≤ y := by
    rw [← hsplit] at hpw
    exact (List.pairwise_append.mp hpw).2.2
  have hdisj : List.Disjoint (S.take 5) (S.drop 5) := by
    rw [← hsplit] at hSnd
    exact List.disjoint_of_nodup_append hSnd
  have hRsub : ∀ x ∈ S.reverse.drop 10, isAnalysisKey x = true := by
    intro x hx
    have hxS : x ∈ S := List.mem_of_mem_take ((hmemR x).mp hx)
    exact (List.mem_filter.mp (hperm.mem_iff.mp hxS)).2
  refine ⟨?_, ?_, ?_⟩
  · have h1 : (S.take 5).filter (fun k => decide (k ∉ S.reverse.drop 10)) = [] := by
      rw [List.filter_eq_nil_iff]
      intro a ha
      simp only [decide_eq_true_eq, not_not]
      exact (hmemR a).mpr ha
    have h2 : (S.drop 5).filter (fun k => decide (k ∉ S.reverse.drop 10)) = S.drop 5 := by
      rw [List.filter_eq_self]
      intro a ha
      simp only [decide_eq_true_eq]
      intro haR
      exact hdisj ((hmemR a).mp haR) ha
    have hp2 : S.filter (fun k => decide (k ∉ S.reverse.drop 10)) = S.drop 5 := by
      have h3 := congrArg (List.filter (fun k => decide (k ∉ S.reverse.drop 10))) hsplit
      rw [List.filter_append, h1, h2, List.nil_append] at h3
      exact h3.symm
    have hAfilter :
        (((store.map Prod.fst).filter isAnalysisKey).filter
            (fun k => decide (k ∉ S.reverse.drop 10))).length = 10 := by
      calc (((store.map Prod.fst).filter isAnalysisKey).filter
              (fun k => decide (k ∉ S.reverse.drop 10))).length
          = (S.filter (fun k => decide (k ∉ S.reverse.drop 10))).length :=
            (hperm.filter _).length_eq.symm
        _ = (S.drop 5).length := by rw [hp2]
        _ = 10 := by rw [List.length_drop, hSlen]
    calc (((cleanupOldResults store).map Prod.fst).filter isAnalysisKey).length
        = List.countP isAnalysisKey
            ((store.filter (fun p => decide (p.1 ∉ S.reverse.drop 10))).map Prod.fst) := by
          rw [hclean, List.countP_eq_length_filter]
      _ = List.countP (fun p => isAnalysisKey p.1
            && decide (p.1 ∉ S.reverse.drop 10)) store := by
          rw [List.countP_map, List.countP_filter]
          exact List.countP_congr (fun x _ => by simp [Function.comp])
      _ = List.countP (fun p => decide (p.1 ∉ S.reverse.drop 10)
            && isAnalysisKey p.1) store :=
          List.countP_congr (fun x _ => by simp [Bool.and_comm])
      _ = List.countP (fun k => decide (k ∉ S.reverse.drop 10))
            ((store.map Prod.fst).filter isAnalysisKey) := by
          rw [List.countP_filter, List.countP_map]
          exact List.countP_congr (fun x _ => by simp [Function.comp])
      _ = 10 := by rw [List.countP_eq_length_filter, hAfilter]
  · intro p hp hpa
    rw [hclean]
    refine List.mem_filter.mpr ⟨hp, ?_⟩
    simp only [decide_eq_true_eq]
    intro hR
    exact absurd (hRsub p.1 hR) (by simp [hpa])
  · intro p hp hpn q hq hqa
    rw [hclean] at hpn hq
    have hpR : p.1 ∈ S.reverse.drop 10 := by
      by_contra hnR
      exact hpn (List.mem_filter.mpr ⟨hp, by simpa using hnR⟩)
    have hqstore : q ∈ store := (List.mem_filter.mp hq).1
    have hqnR : q.1 ∉ S.reverse.drop 10 := by
      have h := (List.mem_filter.mp hq).2
      simpa using h
    have hpTake : p.1 ∈ S.take 5 := (hmemR _).mp hpR
    have hqS : q.1 ∈ S :=
      hperm.mem_iff.mpr (List.mem_filter.mpr ⟨List.mem_map.mpr ⟨q, hqstore, rfl⟩, hqa⟩)
    have hqDrop : q.1 ∈ S.drop 5 := by
      have hq2 : q.1 ∈ S.take 5 ++ S.drop 5 := by rw [hsplit]; exact hqS
      rcases List.mem_append.mp hq2 with h | h
      · exact absurd ((hmemR _).mpr h) hqnR
      · exact h
    refine lt_of_le_of_ne (hcross _ hpTake _ hqDrop) ?_
    intro he
    exact hdisj hpTake (by rw [he]; exact hqDrop)

/-- C9 demo store: fifteen analysis records plus one settings key. -/
def demoStore : List (String × Nat) :=
  [("analysis_10", 0), ("analysis_11", 1), ("analysis_12", 2), ("analysis_13", 3),
   ("analysis_14", 4), ("analysis_15", 5), ("analysis_16", 6), ("analysis_17", 7),
   ("analysis_18", 8), ("analysis_19", 9), ("analysis_20", 10), ("analysis_21", 11),
   ("analysis_22", 12), ("analysis_23", 13), ("analysis_24", 14), ("or_api_key", 99)]

/-- C9 witness: the demo store satisfies both hypotheses and the eviction
conclusions. -/
theorem cleanup_keeps_ten_greatest_witness :
    ((demoStore.map Prod.fst).Nodup
      ∧ ((demoStore.map Prod.fst).filter isAnalysisKey).length = 15)
    ∧ ((((cleanupOldResults demoStore).map Prod.fst).filter isAnalysisKey).length = 10
      ∧ (∀ p ∈ demoStore, isAnalysisKey p.1 = false → p ∈ cleanupOldResults demoStore)
      ∧ (∀ p ∈ demoStore, p ∉ cleanupOldResults demoStore →
          ∀ q ∈ cleanupOldResults demoStore, isAnalysisKey q.1 = true → p.1 < q.1)) :=
  ⟨⟨by decide, by decide⟩, cleanup_keeps_ten_greatest demoStore (by decide) (by decide)⟩

end ShupraProtects
